import Mathlib

/-!
Shallow embedding of the CABAC context-model subsystem of the VTM codec
(source file `source/Lib/CommonLib/Contexts.cpp`), together with theorems
settling the specified properties of probability-model initialization,
the state-to-count and bit-cost tables, context-set merging, the
registration of context groups, bulk store operations, and the
copy/snapshot semantics of coding contexts.

Machine integers are embedded as `Nat`/`Int` with explicit masks and
`% 65536` where 16-bit wraparound matters; the contract-violation
`CHECK` macro is embedded as `Option` (a firing check is `none`).
-/

/-- Modelled from the spec: the packed probability-model word of
`BinProbModel_Std` holds two fixed-point sub-estimates and an
adaptation-rate parameter.  The field layout lives in the missing
`Contexts.h`; only the pieces the sources touch are modelled: the two
sub-state fields written by `init`, and the rate written by
`setLog2WindowSize`. -/
structure BinProbModel_Std where
  state0 : Nat
  state1 : Nat
  rate   : Nat
deriving DecidableEq, Repr

instance : Inhabited BinProbModel_Std := ⟨⟨0, 0, 0⟩⟩

/-- Modelled from the spec: `MASK_0` is defined in the missing
`Contexts.h`.  Per the spec the two sub-states "start equal" to the
looked-up count and the probability precision is 15 bits, so the mask is
modelled as the full 15-bit mask. -/
def MASK_0 : Nat := 32767

/-- Modelled from the spec: `MASK_1` is defined in the missing
`Contexts.h`; modelled as the full 15-bit mask, see `MASK_0`. -/
def MASK_1 : Nat := 32767

/-- The 128-entry state-to-count table
`ProbModelTables::m_inistateToCount` (Contexts.cpp lines 124-133). -/
def m_inistateToCount : List Nat := [
  614,   647,   681,   718,   756,   797,   839,   884,   932,   982,   1034,  1089,  1148,  1209,  1274,  1342,
  1414,  1490,  1569,  1653,  1742,  1835,  1933,  2037,  2146,  2261,  2382,  2509,  2643,  2785,  2934,  3091,
  3256,  3430,  3614,  3807,  4011,  4225,  4452,  4690,  4941,  5205,  5483,  5777,  6086,  6412,  6755,  7116,
  7497,  7898,  8320,  8766,  9235,  9729,  10249, 10798, 11375, 11984, 12625, 13300, 14012, 14762, 15551, 16384,
  16384, 17216, 18005, 18755, 19467, 20142, 20783, 21392, 21969, 22518, 23038, 23532, 24001, 24447, 24869, 25270,
  25651, 26012, 26355, 26681, 26990, 27284, 27562, 27826, 28077, 28315, 28542, 28756, 28960, 29153, 29337, 29511,
  29676, 29833, 29982, 30124, 30258, 30385, 30506, 30621, 30730, 30834, 30932, 31025, 31114, 31198, 31277, 31353,
  31425, 31493, 31558, 31619, 31678, 31733, 31785, 31835, 31883, 31928, 31970, 32011, 32049, 32086, 32120, 32153]

/-- The initial-state index of `BinProbModel_Std::init` (Contexts.cpp
lines 137-140): slope and offset from the two nibbles of `initId`, the
arithmetic right shift `>> 4` embedded as flooring division, and the
clamp of the result to `[0, 127]`. -/
def initStateIdx (qp : Int) (initId : Nat) : Nat :=
  let slope : Int := ((initId >>> 4) * 5 : Nat) - 45
  let offset : Int := (((initId &&& 15) <<< 3) : Nat) - 16
  let inistate : Int := Int.fdiv (slope * qp) 16 + offset
  if inistate < 0 then 0 else if 127 < inistate then 127 else inistate.toNat

/-- BinProbModel_Std::init (Contexts.cpp lines 135-143): look up the
state-to-count table at the derived initial-state index and write the
two masked sub-state fields. -/
def BinProbModel_Std.init (m : BinProbModel_Std) (qp : Int) (initId : Nat) :
    BinProbModel_Std :=
  let p1 := m_inistateToCount.getD (initStateIdx qp initId) 0
  { m with state0 := p1 &&& MASK_0, state1 := p1 &&& MASK_1 }

/-- Modelled from the spec: `setLog2WindowSize` lives in the missing
`Contexts.h`; per the spec it sets the adaptation-rate parameter
governing the two sub-estimates. -/
def BinProbModel_Std.setLog2WindowSize (m : BinProbModel_Std) (r : Nat) :
    BinProbModel_Std :=
  { m with rate := r }

/-- Modelled from the spec: `setState` lives in the missing
`Contexts.h`; per the spec it is the raw packed-state setter used for
snapshot persistence, splitting the word into the two masked
sub-states in the same style as `init`. -/
def BinProbModel_Std.setState (m : BinProbModel_Std) (w : Nat) :
    BinProbModel_Std :=
  { m with state0 := w &&& MASK_0, state1 := w &&& MASK_1 }

/-- Modelled from the spec: `getState` lives in the missing
`Contexts.h`; per the spec it is the raw packed-state accessor, the
combined word of the two sub-states. -/
def BinProbModel_Std.getState (m : BinProbModel_Std) : Nat :=
  m.state0 + m.state1

/-- Written after the spec's words for the refinement claim about
`init`: decompose `initValue` into high and low nibble, compute
`slope = slopeSelector*5 - 45` and `offset = offsetSelector*8 - 16`,
form `((slope*qp) >> 4) + offset` clamped to `[0, 127]`, and look up
the 128-entry state-to-count table there. -/
def initStateCountSpec (qp : Int) (initValue : Nat) : Nat :=
  let slope : Int := (initValue / 16 : Nat) * 5 - 45
  let offset : Int := (initValue % 16 : Nat) * 8 - 16
  let rawIdx : Int := Int.fdiv (slope * qp) 16 + offset
  m_inistateToCount.getD (max 0 (min 127 rawIdx)).toNat 0

/-- A context-set handle (Contexts.h `CtxSet`): offset and size, uint16
fields embedded as `Nat` values below 65536. -/
structure CtxSet where
  Offset : Nat
  Size   : Nat
deriving DecidableEq, Repr

/-- Truncation to an unsigned 16-bit value. -/
def u16 (n : Nat) : Nat := n % 65536

/-- CtxSet merge constructor (Contexts.cpp lines 148-159): fold the
list keeping `minOffset` (running minimum, seeded with the uint16
maximum 65535) and `maxOffset` (running maximum of the truncated
`Offset+Size`, seeded with 0), then return offset `minOffset` and the
uint16 difference `maxOffset - minOffset`. -/
def CtxSet.merge (ctxSets : List CtxSet) : CtxSet :=
  let mm := ctxSets.foldl
    (fun (p : Nat × Nat) (c : CtxSet) =>
      (min p.1 c.Offset, max p.2 (u16 (c.Offset + c.Size))))
    (65535, 0)
  ⟨mm.1, u16 (mm.2 + 65536 - mm.1)⟩

/-- A context store is the flat buffer of probability models
(`CtxStore<BinProbModel_Std>::m_CtxBuffer`). -/
abbrev CtxStore := List BinProbModel_Std

/-- CtxStore::setWinSizes (Contexts.cpp lines 925-934): the CHECK fires
(`none`) when the vector length differs from the store size, otherwise
every model gets its window size set. -/
def CtxStore.setWinSizes (store : CtxStore) (log2WindowSizes : List Nat) :
    Option CtxStore :=
  if store.length = log2WindowSizes.length then
    some ((store.zip log2WindowSizes).map fun p => p.1.setLog2WindowSize p.2)
  else none

/-- CtxStore::loadPStates (Contexts.cpp lines 936-945): the CHECK fires
(`none`) when the vector length differs from the store size, otherwise
every model gets its packed state set. -/
def CtxStore.loadPStates (store : CtxStore) (probStates : List Nat) :
    Option CtxStore :=
  if store.length = probStates.length then
    some ((store.zip probStates).map fun p => p.1.setState p.2)
  else none

/-- CtxStore::savePStates (Contexts.cpp lines 947-955): no CHECK; the
output vector is resized to the store size (truncating or padding with
zero) and then every slot is overwritten with the corresponding
model's packed state. -/
def CtxStore.savePStates (store : CtxStore) (probStates : List Nat) :
    List Nat :=
  let resized := probStates.take store.length ++
    List.replicate (store.length - probStates.length) 0
  (List.range store.length).foldl
    (fun acc k => acc.set k ((store.getD k default).getState)) resized

/-- Modelled from the spec: `NUMBER_OF_SLICE_TYPES` comes from a header
that is not part of the sources; the spec names exactly the three
slice types I, P and B, so the constant is 3 (the registration state
holds `NUMBER_OF_SLICE_TYPES + 1 = 4` parallel rows). -/
def NUMBER_OF_SLICE_TYPES : Nat := 3

/-- Modelled from the spec: `MAX_QP` comes from the missing
`CommonDef.h`; the spec calls it the codec's valid QP upper bound
(63 for this codec generation). -/
def MAX_QP : Int := 63

/-- Modelled from the spec: `Clip3(lo, hi, x)` comes from the missing
`CommonDef.h`; the spec writes it `clip(qp, 0, maxQp)`, clamping into
the closed interval. -/
def Clip3 (lo hi x : Int) : Int := max lo (min hi x)

/-- ContextSetCfg::getInitTable (Contexts.cpp lines 165-170): CHECK
fires (`none`) when `initId` is not a valid row index of the
registration tables. -/
def getInitTable (initTables : List (List Nat)) (initId : Nat) :
    Option (List Nat) :=
  if initId < initTables.length then some (initTables.getD initId []) else none

/-- CtxStore::init (Contexts.cpp lines 907-923): fetch the chosen init
row and the rate row, CHECK both against the store size, then
initialize every model with the clipped QP and its init byte and set
its window size from the rate row. -/
def CtxStore.init (initTables : List (List Nat)) (store : CtxStore)
    (qp : Int) (initId : Nat) : Option CtxStore :=
  match getInitTable initTables initId with
  | none => none
  | some initTable =>
    if store.length = initTable.length then
      match getInitTable initTables NUMBER_OF_SLICE_TYPES with
      | none => none
      | some rateInitTable =>
        if store.length = rateInitTable.length then
          let clippedQP := Clip3 0 MAX_QP qp
          some (((store.zip initTable).zip rateInitTable).map fun p =>
            (p.1.1.init clippedQP p.1.2).setLog2WindowSize p.2)
        else none
    else none

/-- Writing a run of values into a list starting at position `start`,
the element-copy loop of `ContextSetCfg::addCtxSet` (Contexts.cpp
lines 185-189). -/
def writeAt (l : List Nat) (start : Nat) (vals : List Nat) : List Nat :=
  l.take start ++ vals ++ l.drop (start + vals.length)

/-- Resizing a vector to length `n`, padding with zero
(`std::vector::resize(n)`). -/
def resizeList (l : List Nat) (n : Nat) : List Nat :=
  l.take n ++ List.replicate (n - l.length) 0

/-- The row loop of `ContextSetCfg::addCtxSet` (Contexts.cpp lines
178-190): walk the supplied rows and the registration rows in
parallel (the loop stops at whichever runs out first), CHECK each
supplied row against `numValues`, resize the registration row to
`startIdx + numValues` and copy the supplied values in at `startIdx`. -/
def addCtxSetRows (startIdx numValues : Nat) :
    List (List Nat) → List (List Nat) → Option (List (List Nat))
  | rows, [] => some rows
  | [], _ => some []
  | row :: rows, vals :: valss =>
    if vals.length = numValues then
      match addCtxSetRows startIdx numValues rows valss with
      | none => none
      | some rest =>
        some (writeAt (resizeList row (startIdx + numValues)) startIdx vals
          :: rest)
    else none

/-- ContextSetCfg::addCtxSet (Contexts.cpp lines 173-192): `startIdx`
is the first registration row's current length, `numValues` the first
supplied row's length; the rows are appended and the handle
`CtxSet(startIdx, numValues)` (uint16 casts) is returned. -/
def addCtxSet (st : List (List Nat)) (initSet2d : List (List Nat)) :
    Option (List (List Nat) × CtxSet) :=
  let startIdx := (st.headD []).length
  let numValues := (initSet2d.headD []).length
  match addCtxSetRows startIdx numValues st initSet2d with
  | none => none
  | some st2 => some (st2, ⟨u16 startIdx, u16 numValues⟩)

/-- The numbers of contexts in each group of the fixed registration
sequence of Contexts.cpp lines 200-879, in registration order (the
snapshot's adopted-tool macros from the missing `TypeDef.h` are taken
as enabled, which selects the first branch of each conditional
block). -/
def registrationSizes : List Nat :=
  [9, 6, 5, 4, 3, 1, 2, 1, 1, 1, 1, 4, 2, 3, 1, 2, 3, 3, 5, 2, 3, 1, 1, 1,
   2, 1, 4, 5, 2, 2, 2, 2, 2, 18, 12, 18, 12, 18, 12, 21, 11, 21, 11, 21,
   11, 25, 4, 25, 4, 1, 1, 1, 1, 1, 2, 2, 11, 2, 2, 1, 3, 1, 10, 1, 1, 4,
   9, 1, 1, 1, 3, 1, 3, 3, 1, 15, 1]

/-- ContextSetCfg::NumberOfContexts (Contexts.cpp line 881): the first
registration row's length once the fixed registration sequence has
run, i.e. the total of all registered group sizes. -/
def NumberOfContexts : Nat := registrationSizes.sum

/-- A coding-context object (`Ctx`, Contexts.h/Contexts.cpp): the
probability-model kind tag, the owned context buffer
(`m_CtxStore_Std.m_CtxBuffer`), the index of the heap object whose
buffer the store's working pointer `m_Ctx` aliases (`data()` of that
object's buffer), and the Golomb-Rice adaptation statistics array
`m_GRAdaptStats`. -/
structure CtxObj where
  m_BPMType : Nat
  m_CtxBuffer : List BinProbModel_Std
  m_CtxPtr : Nat
  m_GRAdaptStats : List Nat
deriving DecidableEq, Repr

instance : Inhabited CtxObj := ⟨⟨0, [], 0, []⟩⟩

/-- A heap of coding-context objects, addressed by position; pointer
fields of the objects index into this heap. -/
abbrev CtxHeap := List CtxObj

/-- Ctx copy constructor (Contexts.cpp lines 970-975 together with the
CtxStore copy constructor at lines 901-905): the new object copies the
kind tag, copies the source's context buffer into its own fresh
buffer, points its working pointer `m_Ctx` at its *own* buffer
(`m_CtxBuffer.data()`), and memcpy's the whole statistics array. -/
def ctxCopy (h : CtxHeap) (src : Nat) : CtxHeap :=
  let s := h.getD src default
  h ++ [{ m_BPMType := s.m_BPMType, m_CtxBuffer := s.m_CtxBuffer,
          m_CtxPtr := h.length, m_GRAdaptStats := s.m_GRAdaptStats }]

/-- A single mutation of a coding context: overwriting one probability
model slot (through the store's working pointer, as every coding
update does) or one Golomb-Rice statistics entry (a direct member
write). -/
inductive CtxMut where
  | setSlot (k : Nat) (m : BinProbModel_Std)
  | setGRStat (i : Nat) (v : Nat)
deriving DecidableEq, Repr

/-- Applying one mutation to the context object at `tgt`: slot writes
go through the object's working pointer `m_CtxPtr`; statistics writes
hit the object's own array member. -/
def applyMut (h : CtxHeap) (tgt : Nat) : CtxMut → CtxHeap
  | .setSlot k m =>
    let p := (h.getD tgt default).m_CtxPtr
    let po := h.getD p default
    h.set p { po with m_CtxBuffer := po.m_CtxBuffer.set k m }
  | .setGRStat i v =>
    let o := h.getD tgt default
    h.set tgt { o with m_GRAdaptStats := o.m_GRAdaptStats.set i v }

/-- Applying a sequence of mutations to the context object at `tgt`. -/
def applyMuts (h : CtxHeap) (tgt : Nat) : List CtxMut → CtxHeap
  | [] => h
  | mu :: rest => applyMuts (applyMut h tgt mu) tgt rest

/-- The 256-entry fractional-bit-cost table
`ProbModelTables::m_binFracBits` (Contexts.cpp lines 57-122); each
entry holds the two packed `intBits` components of a `BinFracBits`
row. -/
def m_binFracBits : List (Nat × Nat) := [
  (0x0005c, 0x48000), (0x00116, 0x3b520), (0x001d0, 0x356cb), (0x0028b, 0x318a9),
  (0x00346, 0x2ea40), (0x00403, 0x2c531), (0x004c0, 0x2a658), (0x0057e, 0x28beb),
  (0x0063c, 0x274ce), (0x006fc, 0x26044), (0x007bc, 0x24dc9), (0x0087d, 0x23cfc),
  (0x0093f, 0x22d96), (0x00a01, 0x21f60), (0x00ac4, 0x2122e), (0x00b89, 0x205dd),
  (0x00c4e, 0x1fa51), (0x00d13, 0x1ef74), (0x00dda, 0x1e531), (0x00ea2, 0x1db78),
  (0x00f6a, 0x1d23c), (0x01033, 0x1c970), (0x010fd, 0x1c10b), (0x011c8, 0x1b903),
  (0x01294, 0x1b151), (0x01360, 0x1a9ee), (0x0142e, 0x1a2d4), (0x014fc, 0x19bfc),
  (0x015cc, 0x19564), (0x0169c, 0x18f06), (0x0176d, 0x188de), (0x0183f, 0x182e8),
  (0x01912, 0x17d23), (0x019e6, 0x1778a), (0x01abb, 0x1721c), (0x01b91, 0x16cd5),
  (0x01c68, 0x167b4), (0x01d40, 0x162b6), (0x01e19, 0x15dda), (0x01ef3, 0x1591e),
  (0x01fcd, 0x15480), (0x020a9, 0x14fff), (0x02186, 0x14b99), (0x02264, 0x1474e),
  (0x02343, 0x1431b), (0x02423, 0x13f01), (0x02504, 0x13afd), (0x025e6, 0x1370f),
  (0x026ca, 0x13336), (0x027ae, 0x12f71), (0x02894, 0x12bc0), (0x0297a, 0x12821),
  (0x02a62, 0x12494), (0x02b4b, 0x12118), (0x02c35, 0x11dac), (0x02d20, 0x11a51),
  (0x02e0c, 0x11704), (0x02efa, 0x113c7), (0x02fe9, 0x11098), (0x030d9, 0x10d77),
  (0x031ca, 0x10a63), (0x032bc, 0x1075c), (0x033b0, 0x10461), (0x034a5, 0x10173),
  (0x0359b, 0x0fe90), (0x03693, 0x0fbb9), (0x0378c, 0x0f8ed), (0x03886, 0x0f62b),
  (0x03981, 0x0f374), (0x03a7e, 0x0f0c7), (0x03b7c, 0x0ee23), (0x03c7c, 0x0eb89),
  (0x03d7d, 0x0e8f9), (0x03e7f, 0x0e671), (0x03f83, 0x0e3f2), (0x04088, 0x0e17c),
  (0x0418e, 0x0df0e), (0x04297, 0x0dca8), (0x043a0, 0x0da4a), (0x044ab, 0x0d7f3),
  (0x045b8, 0x0d5a5), (0x046c6, 0x0d35d), (0x047d6, 0x0d11c), (0x048e7, 0x0cee3),
  (0x049fa, 0x0ccb0), (0x04b0e, 0x0ca84), (0x04c24, 0x0c85e), (0x04d3c, 0x0c63f),
  (0x04e55, 0x0c426), (0x04f71, 0x0c212), (0x0508d, 0x0c005), (0x051ac, 0x0bdfe),
  (0x052cc, 0x0bbfc), (0x053ee, 0x0b9ff), (0x05512, 0x0b808), (0x05638, 0x0b617),
  (0x0575f, 0x0b42a), (0x05888, 0x0b243), (0x059b4, 0x0b061), (0x05ae1, 0x0ae83),
  (0x05c10, 0x0acaa), (0x05d41, 0x0aad6), (0x05e74, 0x0a907), (0x05fa9, 0x0a73c),
  (0x060e0, 0x0a575), (0x06219, 0x0a3b3), (0x06354, 0x0a1f5), (0x06491, 0x0a03b),
  (0x065d1, 0x09e85), (0x06712, 0x09cd4), (0x06856, 0x09b26), (0x0699c, 0x0997c),
  (0x06ae4, 0x097d6), (0x06c2f, 0x09634), (0x06d7c, 0x09495), (0x06ecb, 0x092fa),
  (0x0701d, 0x09162), (0x07171, 0x08fce), (0x072c7, 0x08e3e), (0x07421, 0x08cb0),
  (0x0757c, 0x08b26), (0x076da, 0x089a0), (0x0783b, 0x0881c), (0x0799f, 0x0869c),
  (0x07b05, 0x0851f), (0x07c6e, 0x083a4), (0x07dd9, 0x0822d), (0x07f48, 0x080b9),
  (0x080b9, 0x07f48), (0x0822d, 0x07dd9), (0x083a4, 0x07c6e), (0x0851f, 0x07b05),
  (0x0869c, 0x0799f), (0x0881c, 0x0783b), (0x089a0, 0x076da), (0x08b26, 0x0757c),
  (0x08cb0, 0x07421), (0x08e3e, 0x072c7), (0x08fce, 0x07171), (0x09162, 0x0701d),
  (0x092fa, 0x06ecb), (0x09495, 0x06d7c), (0x09634, 0x06c2f), (0x097d6, 0x06ae4),
  (0x0997c, 0x0699c), (0x09b26, 0x06856), (0x09cd4, 0x06712), (0x09e85, 0x065d1),
  (0x0a03b, 0x06491), (0x0a1f5, 0x06354), (0x0a3b3, 0x06219), (0x0a575, 0x060e0),
  (0x0a73c, 0x05fa9), (0x0a907, 0x05e74), (0x0aad6, 0x05d41), (0x0acaa, 0x05c10),
  (0x0ae83, 0x05ae1), (0x0b061, 0x059b4), (0x0b243, 0x05888), (0x0b42a, 0x0575f),
  (0x0b617, 0x05638), (0x0b808, 0x05512), (0x0b9ff, 0x053ee), (0x0bbfc, 0x052cc),
  (0x0bdfe, 0x051ac), (0x0c005, 0x0508d), (0x0c212, 0x04f71), (0x0c426, 0x04e55),
  (0x0c63f, 0x04d3c), (0x0c85e, 0x04c24), (0x0ca84, 0x04b0e), (0x0ccb0, 0x049fa),
  (0x0cee3, 0x048e7), (0x0d11c, 0x047d6), (0x0d35d, 0x046c6), (0x0d5a5, 0x045b8),
  (0x0d7f3, 0x044ab), (0x0da4a, 0x043a0), (0x0dca8, 0x04297), (0x0df0e, 0x0418e),
  (0x0e17c, 0x04088), (0x0e3f2, 0x03f83), (0x0e671, 0x03e7f), (0x0e8f9, 0x03d7d),
  (0x0eb89, 0x03c7c), (0x0ee23, 0x03b7c), (0x0f0c7, 0x03a7e), (0x0f374, 0x03981),
  (0x0f62b, 0x03886), (0x0f8ed, 0x0378c), (0x0fbb9, 0x03693), (0x0fe90, 0x0359b),
  (0x10173, 0x034a5), (0x10461, 0x033b0), (0x1075c, 0x032bc), (0x10a63, 0x031ca),
  (0x10d77, 0x030d9), (0x11098, 0x02fe9), (0x113c7, 0x02efa), (0x11704, 0x02e0c),
  (0x11a51, 0x02d20), (0x11dac, 0x02c35), (0x12118, 0x02b4b), (0x12494, 0x02a62),
  (0x12821, 0x0297a), (0x12bc0, 0x02894), (0x12f71, 0x027ae), (0x13336, 0x026ca),
  (0x1370f, 0x025e6), (0x13afd, 0x02504), (0x13f01, 0x02423), (0x1431b, 0x02343),
  (0x1474e, 0x02264), (0x14b99, 0x02186), (0x14fff, 0x020a9), (0x15480, 0x01fcd),
  (0x1591e, 0x01ef3), (0x15dda, 0x01e19), (0x162b6, 0x01d40), (0x167b4, 0x01c68),
  (0x16cd5, 0x01b91), (0x1721c, 0x01abb), (0x1778a, 0x019e6), (0x17d23, 0x01912),
  (0x182e8, 0x0183f), (0x188de, 0x0176d), (0x18f06, 0x0169c), (0x19564, 0x015cc),
  (0x19bfc, 0x014fc), (0x1a2d4, 0x0142e), (0x1a9ee, 0x01360), (0x1b151, 0x01294),
  (0x1b903, 0x011c8), (0x1c10b, 0x010fd), (0x1c970, 0x01033), (0x1d23c, 0x00f6a),
  (0x1db78, 0x00ea2), (0x1e531, 0x00dda), (0x1ef74, 0x00d13), (0x1fa51, 0x00c4e),
  (0x205dd, 0x00b89), (0x2122e, 0x00ac4), (0x21f60, 0x00a01), (0x22d96, 0x0093f),
  (0x23cfc, 0x0087d), (0x24dc9, 0x007bc), (0x26044, 0x006fc), (0x274ce, 0x0063c),
  (0x28beb, 0x0057e), (0x2a658, 0x004c0), (0x2c531, 0x00403), (0x2ea40, 0x00346),
  (0x318a9, 0x0028b), (0x356cb, 0x001d0), (0x3b520, 0x00116), (0x48000, 0x0005c)]

/-- The amended symmetry/monotonicity property of the state-to-count
table as one decidable check: the table is nondecreasing, carries the
four literal anchor values, and `table[i] + table[127-i]` equals 32767
for every index except the two middle indices 63 and 64, where it
equals 32768. -/
def inistateToCountAmendedCheck : Bool :=
  ((List.range 128).all fun i =>
    m_inistateToCount.getD i 0 + m_inistateToCount.getD (127 - i) 0 ==
      (if i == 63 || i == 64 then 32768 else 32767)) &&
  ((List.range 127).all fun i =>
    Nat.ble (m_inistateToCount.getD i 0) (m_inistateToCount.getD (i + 1) 0)) &&
  (m_inistateToCount.getD 0 0 == 614) &&
  (m_inistateToCount.getD 63 0 == 16384) &&
  (m_inistateToCount.getD 64 0 == 16384) &&
  (m_inistateToCount.getD 127 0 == 32153)

/-- The table-level form of the bit-cost monotonicity property as one
decidable check: every mirrored entry is the component swap of its
counterpart, every component is strictly positive, and on the first
half of the table the first component (the more-likely bin's cost) is
at most the second (the less-likely bin's cost). -/
def binFracBitsCheck : Bool :=
  (List.range 256).all fun i =>
    let e := m_binFracBits.getD i (0, 0)
    let eMirror := m_binFracBits.getD (255 - i) (0, 0)
    (eMirror.1 == e.2) && (eMirror.2 == e.1) &&
    Nat.blt 0 e.1 && Nat.blt 0 e.2 &&
    (!(Nat.blt i 128) || Nat.ble e.1 e.2)

lemma getD_lt_of_forall {l : List Nat} {c d : Nat} (hd : d < c)
    (h : ∀ x ∈ l, x < c) (i : Nat) : l.getD i d < c := by
  rcases Nat.lt_or_ge i l.length with hi | hi
  · rw [List.getD_eq_getElem l d hi]
    exact h _ (List.getElem_mem hi)
  · rw [List.getD_eq_default l d hi]
    exact hd

set_option maxRecDepth 10000 in
lemma inistateToCount_all_lt : ∀ x ∈ m_inistateToCount, x < 32768 := by decide

lemma inistateToCount_getD_lt (i : Nat) : m_inistateToCount.getD i 0 < 32768 :=
  getD_lt_of_forall (by norm_num) inistateToCount_all_lt i

lemma and_mask15_eq {p : Nat} (hp : p < 32768) : p &&& 32767 = p := by
  have h15 : (32767 : Nat) = 2 ^ 15 - 1 := by norm_num
  rw [h15, Nat.and_pow_two_sub_one_eq_mod]
  exact Nat.mod_eq_of_lt (by norm_num at hp ⊢; omega)

/-- C3: immediately after `BinProbModel_Std::init`, the two packed
sub-state fields are equal to each other, and both equal the
probability count looked up from the state-to-count table. -/
theorem thm_C3_substates_start_equal (m : BinProbModel_Std) (qp : Int)
    (initId : Nat) :
    (m.init qp initId).state0 = (m.init qp initId).state1 ∧
    (m.init qp initId).state0 =
      m_inistateToCount.getD (initStateIdx qp initId) 0 := by
  refine ⟨rfl, ?_⟩
  show m_inistateToCount.getD (initStateIdx qp initId) 0 &&& MASK_0 =
    m_inistateToCount.getD (initStateIdx qp initId) 0
  exact and_mask15_eq (inistateToCount_getD_lt _)

lemma initStateIdx_eq_spec (qp : Int) (iv : Nat) :
    initStateIdx qp iv =
      (max 0 (min 127 (Int.fdiv (((iv / 16 : Nat) * 5 - 45) * qp) 16 +
        ((iv % 16 : Nat) * 8 - 16)))).toNat := by
  have h1 : iv >>> 4 = iv / 16 := by
    rw [Nat.shiftRight_eq_div_pow]
  have h2 : iv &&& 15 = iv % 16 := by
    have h : (15 : Nat) = 2 ^ 4 - 1 := by norm_num
    rw [h, Nat.and_pow_two_sub_one_eq_mod]
  have h3 : (iv &&& 15) <<< 3 = (iv % 16) * 8 := by
    rw [Nat.shiftLeft_eq, h2]
  simp only [initStateIdx, h1, h3]
  push_cast
  generalize Int.fdiv ((((iv / 16 : Nat) : Int) * 5 - 45) * qp) 16 +
    (((iv % 16 : Nat) : Int) * 8 - 16) = r
  split_ifs <;> omega

/-- C2: for every qp and every 8-bit initValue, `init` derives its
state as the pure function of its arguments given by the spec's slope,
offset, clamped initial-state index and state-to-count lookup (both
sub-states receive the looked-up count). -/
theorem thm_C2_init_pure_formula (m : BinProbModel_Std) (qp : Int)
    (initId : Nat) (h8 : initId < 256) :
    m.init qp initId =
      { m with state0 := initStateCountSpec qp initId,
               state1 := initStateCountSpec qp initId } := by
  have hspec : initStateCountSpec qp initId =
      m_inistateToCount.getD (initStateIdx qp initId) 0 := by
    unfold initStateCountSpec
    rw [initStateIdx_eq_spec]
  unfold BinProbModel_Std.init
  rw [hspec]
  have hmask := and_mask15_eq
    (inistateToCount_getD_lt (initStateIdx qp initId))
  show ({ m with
      state0 := m_inistateToCount.getD (initStateIdx qp initId) 0 &&& MASK_0,
      state1 := m_inistateToCount.getD (initStateIdx qp initId) 0 &&& MASK_1 }
    : BinProbModel_Std) = _
  rw [show MASK_0 = 32767 from rfl, show MASK_1 = 32767 from rfl, hmask]

/-- Witness for C2 at qp 32 and the skip-flag init byte 154. -/
theorem thm_C2_witness :
    154 < 256 ∧
    (BinProbModel_Std.mk 0 0 0).init 32 154 =
      { BinProbModel_Std.mk 0 0 0 with
          state0 := initStateCountSpec 32 154,
          state1 := initStateCountSpec 32 154 } :=
  ⟨by norm_num, thm_C2_init_pure_formula (BinProbModel_Std.mk 0 0 0) 32 154 (by norm_num)⟩

/-- Counterexample for C4: the sum `table[i] + table[127-i]` is not the
same constant for every index — at index 0 it is 32767 while at index
63 it is 32768. -/
theorem thm_C4_counterexample :
    m_inistateToCount.getD 0 0 + m_inistateToCount.getD (127 - 0) 0 ≠
      m_inistateToCount.getD 63 0 + m_inistateToCount.getD (127 - 63) 0 := by
  decide

set_option maxRecDepth 40000 in
/-- C4 (amended): the 128-entry state-to-count table is monotonically
nondecreasing, contains the literal anchors `table[0] = 614`,
`table[63] = table[64] = 16384`, `table[127] = 32153`, and satisfies
`table[i] + table[127-i] = 32767` for every index except i = 63 and
i = 64, where the sum is 32768. -/
theorem thm_C4_amended_table_shape : inistateToCountAmendedCheck = true := by
  decide

set_option maxRecDepth 40000 in
/-- C9: in the 256-entry bit-cost table, the entry at index 255 - i is
the component swap of the entry at index i, all components are
strictly positive, and for each fixed probability row the less-likely
bin's cost is at least the more-likely bin's cost. -/
theorem thm_C9_bit_cost_monotonicity : binFracBitsCheck = true := by
  decide

/-- C10: merging the empty list of context sets yields offset 65535
(the uint16 maximum used as the running minimum) and size 1 (the
unsigned 16-bit wraparound of 0 - 65535), a handle whose offset plus
size exceeds the total registered context count. -/
theorem thm_C10_empty_merge_wraps :
    CtxSet.merge [] = ⟨65535, 1⟩ ∧
    NumberOfContexts <
      (CtxSet.merge []).Offset + (CtxSet.merge []).Size := by
  constructor
  · rfl
  · decide

lemma foldl_set_range (f : Nat → Nat) :
    ∀ (n : Nat) (l : List Nat), n ≤ l.length →
    (List.range n).foldl (fun acc k => acc.set k (f k)) l =
      (List.range n).map f ++ l.drop n := by
  intro n
  induction n with
  | zero => intro l h; simp
  | succ n ih =>
    intro l h
    rw [List.range_succ, List.foldl_append]
    simp only [List.foldl_cons, List.foldl_nil]
    rw [ih l (by omega)]
    have hlen : ((List.range n).map f).length = n := by simp
    rw [List.set_append_right _ _ (by omega), hlen, Nat.sub_self]
    have hd : l.drop n = l[n] :: l.drop (n + 1) :=
      List.drop_eq_getElem_cons (by omega)
    rw [hd, List.set_cons_zero]
    simp [List.map_append]

lemma savePStates_eq_map (store : CtxStore) (out : List Nat) :
    CtxStore.savePStates store out = store.map BinProbModel_Std.getState := by
  unfold CtxStore.savePStates
  have hlen : (out.take store.length ++
      List.replicate (store.length - out.length) 0).length = store.length := by
    simp only [List.length_append, List.length_take, List.length_replicate]
    omega
  rw [foldl_set_range _ store.length _ (by omega),
    List.drop_eq_nil_of_le (by omega)]
  rw [List.append_nil]
  apply List.ext_getElem
  · simp
  · intro i h1 h2
    simp only [List.getElem_map, List.getElem_range]
    rw [List.getD_eq_getElem store default (by simpa using h2)]

/-- Counterexample for C5: `savePStates` on a length-mismatched output
vector (1-model store, 2-entry vector) completes and returns the
store's packed state instead of failing. -/
theorem thm_C5_counterexample :
    CtxStore.savePStates [⟨1, 2, 3⟩] [7, 8] = [3] := by decide

/-- C5 (amended): `setWinSizes` and `loadPStates` fail exactly when the
supplied vector's length does not match the store's size; but
`savePStates` never fails — it resizes the output vector to the
store's size and overwrites every slot with the corresponding packed
state. -/
theorem thm_C5_bulk_size_mismatch (store : CtxStore) (ws ps out : List Nat) :
    ((store.setWinSizes ws).isSome ↔ ws.length = store.length) ∧
    ((store.loadPStates ps).isSome ↔ ps.length = store.length) ∧
    store.savePStates out = store.map BinProbModel_Std.getState := by
  refine ⟨?_, ?_, savePStates_eq_map store out⟩
  · unfold CtxStore.setWinSizes
    split_ifs with h <;> simp [h, eq_comm]
  · unfold CtxStore.loadPStates
    split_ifs with h <;> simp [h, eq_comm]

lemma listGetD_set_ne {α : Type} (l : List α) (i j : Nat) (v d : α)
    (h : i ≠ j) : (l.set i v).getD j d = l.getD j d := by
  rw [List.getD_eq_getElem?_getD, List.getD_eq_getElem?_getD,
    List.getElem?_set_ne h]

lemma listGetD_set_self {α : Type} (l : List α) (i : Nat) (v d : α)
    (h : i < l.length) : (l.set i v).getD i d = v := by
  rw [List.getD_eq_getElem?_getD, List.getElem?_set_self h]
  rfl

lemma applyMut_preserves (h2 : CtxHeap) (b : Nat) (mu : CtxMut) (a : Nat)
    (hab : a ≠ b) (hb : b < h2.length)
    (hp : (h2.getD b default).m_CtxPtr = b) :
    (applyMut h2 b mu).getD a default = h2.getD a default ∧
    ((applyMut h2 b mu).getD b default).m_CtxPtr = b ∧
    (applyMut h2 b mu).length = h2.length := by
  cases mu with
  | setSlot k m =>
    simp only [applyMut, hp]
    refine ⟨listGetD_set_ne _ _ _ _ _ (fun hba => hab hba.symm), ?_,
      List.length_set _ _ _⟩
    rw [listGetD_set_self _ _ _ _ hb]
  | setGRStat i v =>
    simp only [applyMut]
    refine ⟨listGetD_set_ne _ _ _ _ _ (fun hba => hab hba.symm), ?_,
      List.length_set _ _ _⟩
    rw [listGetD_set_self _ _ _ _ hb]
    exact hp

lemma applyMuts_preserves (b : Nat) (muts : List CtxMut) :
    ∀ (h2 : CtxHeap) (a : Nat), a ≠ b → b < h2.length →
    (h2.getD b default).m_CtxPtr = b →
    (applyMuts h2 b muts).getD a default = h2.getD a default := by
  induction muts with
  | nil => intro h2 a _ _ _; rfl
  | cons mu rest ih =>
    intro h2 a hab hb hp
    have h3 := applyMut_preserves h2 b mu a hab hb hp
    show (applyMuts (applyMut h2 b mu) b rest).getD a default = _
    rw [ih (applyMut h2 b mu) a hab (h3.2.2 ▸ hb) h3.2.1, h3.1]

/-- C1: copying a coding context is a true deep-copy snapshot — the
copy duplicates the context buffer and the Golomb-Rice statistics
array, and after any sequence of mutations of the copy (slot writes
through the copy's working pointer and statistics writes), the full
state of the source object is unchanged. -/
theorem thm_C1_ctx_copy_deep (h : CtxHeap) (a : Nat) (ha : a < h.length)
    (muts : List CtxMut) :
    (applyMuts (ctxCopy h a) h.length muts).getD a default =
      h.getD a default ∧
    ((ctxCopy h a).getD h.length default).m_CtxBuffer =
      (h.getD a default).m_CtxBuffer ∧
    ((ctxCopy h a).getD h.length default).m_GRAdaptStats =
      (h.getD a default).m_GRAdaptStats := by
  have hgetb : (ctxCopy h a).getD h.length default =
      { m_BPMType := (h.getD a default).m_BPMType,
        m_CtxBuffer := (h.getD a default).m_CtxBuffer,
        m_CtxPtr := h.length,
        m_GRAdaptStats := (h.getD a default).m_GRAdaptStats } := by
    unfold ctxCopy
    rw [List.getD_eq_getElem?_getD, List.getElem?_concat_length]
    rfl
  have hgeta : (ctxCopy h a).getD a default = h.getD a default := by
    unfold ctxCopy
    rw [List.getD_eq_getElem?_getD, List.getElem?_append_left ha,
      ← List.getD_eq_getElem?_getD]
  have hlen : h.length < (ctxCopy h a).length := by
    unfold ctxCopy
    simp
  refine ⟨?_, by rw [hgetb], by rw [hgetb]⟩
  rw [applyMuts_preserves h.length muts (ctxCopy h a) a
    (by omega) hlen (by rw [hgetb])]
  exact hgeta

/-- Witness for C1 on a one-object heap: the copy is mutated in every
slot of its buffer and in its statistics array, and the source object
keeps its exact pre-copy state. -/
theorem thm_C1_witness :
    (0 : Nat) < ([⟨1, [⟨2, 3, 4⟩], 0, [5, 6]⟩] : CtxHeap).length ∧
    ((applyMuts (ctxCopy [⟨1, [⟨2, 3, 4⟩], 0, [5, 6]⟩] 0) 1
        [CtxMut.setSlot 0 ⟨7, 8, 9⟩, CtxMut.setGRStat 1 42]).getD 0 default =
      ([⟨1, [⟨2, 3, 4⟩], 0, [5, 6]⟩] : CtxHeap).getD 0 default ∧
    ((ctxCopy [⟨1, [⟨2, 3, 4⟩], 0, [5, 6]⟩] 0).getD 1 default).m_CtxBuffer =
      (([⟨1, [⟨2, 3, 4⟩], 0, [5, 6]⟩] : CtxHeap).getD 0 default).m_CtxBuffer ∧
    ((ctxCopy [⟨1, [⟨2, 3, 4⟩], 0, [5, 6]⟩] 0).getD 1 default).m_GRAdaptStats =
      (([⟨1, [⟨2, 3, 4⟩], 0, [5, 6]⟩] : CtxHeap).getD 0
        default).m_GRAdaptStats) :=
  ⟨by decide, thm_C1_ctx_copy_deep [⟨1, [⟨2, 3, 4⟩], 0, [5, 6]⟩] 0 (by decide)
    [CtxMut.setSlot 0 ⟨7, 8, 9⟩, CtxMut.setGRStat 1 42]⟩

lemma zipzip_map_getD (f : BinProbModel_Std → Nat → Nat → BinProbModel_Std) :
    ∀ (A : List BinProbModel_Std) (B C : List Nat) (k : Nat),
    k < A.length → k < B.length → k < C.length →
    (((A.zip B).zip C).map fun p => f p.1.1 p.1.2 p.2).getD k default =
      f (A.getD k default) (B.getD k 0) (C.getD k 0) := by
  intro A
  induction A with
  | nil => intro B C k h _ _; simp at h
  | cons x A ih =>
    intro B C k hA hB hC
    cases B with
    | nil => simp at hB
    | cons y B =>
      cases C with
      | nil => simp at hC
      | cons z C =>
        cases k with
        | zero => rfl
        | succ k =>
          simp only [List.zip_cons_cons, List.map_cons, List.getD_cons_succ]
          exact ih B C k (by simpa using hA) (by simpa using hB)
            (by simpa using hC)

/-- C6: under a valid initId, `CtxStore::init` fails exactly when the
store's size differs from the chosen init table's size or from the
rate table's size; on success every context index k holds
`init(clip(qp, 0, MAX_QP), initTable[k])` followed by
`setLog2WindowSize(rateTable[k])`, with the same clipped QP at every
index. -/
theorem thm_C6_store_init (initTables : List (List Nat)) (store : CtxStore)
    (qp : Int) (initId : Nat) (hId : initId < initTables.length)
    (hRate : NUMBER_OF_SLICE_TYPES < initTables.length) :
    (CtxStore.init initTables store qp initId = none ↔
      store.length ≠ (initTables.getD initId []).length ∨
      store.length ≠ (initTables.getD NUMBER_OF_SLICE_TYPES []).length) ∧
    (∀ result, CtxStore.init initTables store qp initId = some result →
      ∀ k, k < store.length →
        result.getD k default =
          ((store.getD k default).init (Clip3 0 MAX_QP qp)
              ((initTables.getD initId []).getD k 0)).setLog2WindowSize
            ((initTables.getD NUMBER_OF_SLICE_TYPES []).getD k 0)) := by
  unfold CtxStore.init getInitTable
  rw [if_pos hId, if_pos hRate]
  dsimp only
  constructor
  · split_ifs with h1 h2
    · exact iff_of_false (by simp) (by push_neg; exact ⟨h1, h2⟩)
    · exact iff_of_true rfl (Or.inr h2)
    · exact iff_of_true rfl (Or.inl h1)
  · intro result hres k hk
    split_ifs at hres with h1 h2
    · injection hres with hres2
      rw [← hres2]
      exact zipzip_map_getD
        (fun m iv r => (m.init (Clip3 0 MAX_QP qp) iv).setLog2WindowSize r)
        store _ _ k hk (h1 ▸ hk) (h2 ▸ hk)

/-- Witness for C6 on a four-row table set and a one-model store. -/
theorem thm_C6_witness :
    (0 : Nat) < ([[10], [20], [30], [7]] : List (List Nat)).length ∧
    NUMBER_OF_SLICE_TYPES < ([[10], [20], [30], [7]] : List (List Nat)).length ∧
    ((CtxStore.init [[10], [20], [30], [7]] [⟨0, 0, 0⟩] 100 0 = none ↔
      ([⟨0, 0, 0⟩] : CtxStore).length ≠
        (([[10], [20], [30], [7]] : List (List Nat)).getD 0 []).length ∨
      ([⟨0, 0, 0⟩] : CtxStore).length ≠
        (([[10], [20], [30], [7]] : List (List Nat)).getD
          NUMBER_OF_SLICE_TYPES []).length) ∧
    (∀ result, CtxStore.init [[10], [20], [30], [7]] [⟨0, 0, 0⟩] 100 0 =
        some result →
      ∀ k, k < ([⟨0, 0, 0⟩] : CtxStore).length →
        result.getD k default =
          ((([⟨0, 0, 0⟩] : CtxStore).getD k default).init (Clip3 0 MAX_QP 100)
              ((([[10], [20], [30], [7]] : List (List Nat)).getD 0 []).getD
                k 0)).setLog2WindowSize
            ((([[10], [20], [30], [7]] : List (List Nat)).getD
              NUMBER_OF_SLICE_TYPES []).getD k 0))) :=
  ⟨by decide, by decide,
    thm_C6_store_init [[10], [20], [30], [7]] [⟨0, 0, 0⟩] 100 0
      (by decide) (by decide)⟩

lemma merge_foldl_split (l : List CtxSet) :
    ∀ (a b : Nat),
    l.foldl (fun (p : Nat × Nat) (c : CtxSet) =>
        (min p.1 c.Offset, max p.2 (u16 (c.Offset + c.Size)))) (a, b) =
      (l.foldl (fun x c => min x c.Offset) a,
       l.foldl (fun x c => max x (u16 (c.Offset + c.Size))) b) := by
  induction l with
  | nil => intro a b; rfl
  | cons c l ih => intro a b; simp only [List.foldl_cons]; exact ih _ _

lemma foldl_min_le_init (g : CtxSet → Nat) (l : List CtxSet) :
    ∀ a, l.foldl (fun x c => min x (g c)) a ≤ a := by
  induction l with
  | nil => intro a; exact Nat.le_refl a
  | cons c l ih =>
    intro a
    exact Nat.le_trans (ih (min a (g c))) (Nat.min_le_left _ _)

lemma foldl_min_le_mem (g : CtxSet → Nat) (l : List CtxSet) :
    ∀ a c, c ∈ l → l.foldl (fun x c => min x (g c)) a ≤ g c := by
  induction l with
  | nil => intro a c hc; simp at hc
  | cons d l ih =>
    intro a c hc
    rcases List.mem_cons.mp hc with h | h
    · subst h
      exact Nat.le_trans (foldl_min_le_init g l _) (Nat.min_le_right _ _)
    · exact ih _ c h

lemma foldl_min_cases (g : CtxSet → Nat) (l : List CtxSet) :
    ∀ a, l.foldl (fun x c => min x (g c)) a = a ∨
      ∃ c ∈ l, l.foldl (fun x c => min x (g c)) a = g c := by
  induction l with
  | nil => intro a; exact Or.inl rfl
  | cons d l ih =>
    intro a
    rcases ih (min a (g d)) with h | ⟨c, hc, h⟩
    · rcases Nat.le_total a (g d) with hle | hle
      · exact Or.inl (by rw [List.foldl_cons, h, Nat.min_eq_left hle])
      · exact Or.inr ⟨d, List.mem_cons_self d l,
          by rw [List.foldl_cons, h, Nat.min_eq_right hle]⟩
    · exact Or.inr ⟨c, List.mem_cons_of_mem d hc, by rw [List.foldl_cons, h]⟩

lemma foldl_max_init_le (g : CtxSet → Nat) (l : List CtxSet) :
    ∀ a, a ≤ l.foldl (fun x c => max x (g c)) a := by
  induction l with
  | nil => intro a; exact Nat.le_refl a
  | cons c l ih =>
    intro a
    exact Nat.le_trans (Nat.le_max_left _ _) (ih (max a (g c)))

lemma foldl_max_mem_le (g : CtxSet → Nat) (l : List CtxSet) :
    ∀ a c, c ∈ l → g c ≤ l.foldl (fun x c => max x (g c)) a := by
  induction l with
  | nil => intro a c hc; simp at hc
  | cons d l ih =>
    intro a c hc
    rcases List.mem_cons.mp hc with h | h
    · subst h
      exact Nat.le_trans (Nat.le_max_right _ _) (foldl_max_init_le g l _)
    · exact ih _ c h

lemma foldl_max_cases (g : CtxSet → Nat) (l : List CtxSet) :
    ∀ a, l.foldl (fun x c => max x (g c)) a = a ∨
      ∃ c ∈ l, l.foldl (fun x c => max x (g c)) a = g c := by
  induction l with
  | nil => intro a; exact Or.inl rfl
  | cons d l ih =>
    intro a
    rcases ih (max a (g d)) with h | ⟨c, hc, h⟩
    · rcases Nat.le_total a (g d) with hle | hle
      · exact Or.inr ⟨d, List.mem_cons_self d l,
          by rw [List.foldl_cons, h, Nat.max_eq_right hle]⟩
      · exact Or.inl (by rw [List.foldl_cons, h, Nat.max_eq_left hle])
    · exact Or.inr ⟨c, List.mem_cons_of_mem d hc, by rw [List.foldl_cons, h]⟩

/-- C7: merging a non-empty list of context sets (whose fields satisfy
the uint16 handle invariant) yields the bounding union — the result's
offset is the minimum of the members' offsets, and the result's end
(offset plus size) is the maximum of the members' ends, so the size is
that maximum minus the minimum offset. -/
theorem thm_C7_merge_bounding_union (ctxSets : List CtxSet)
    (hne : ctxSets ≠ [])
    (hbound : ∀ c ∈ ctxSets, c.Offset + c.Size ≤ 65535) :
    ((∃ c ∈ ctxSets, (CtxSet.merge ctxSets).Offset = c.Offset) ∧
      ∀ c ∈ ctxSets, (CtxSet.merge ctxSets).Offset ≤ c.Offset) ∧
    ((∃ c ∈ ctxSets,
        (CtxSet.merge ctxSets).Offset + (CtxSet.merge ctxSets).Size =
          c.Offset + c.Size) ∧
      ∀ c ∈ ctxSets, c.Offset + c.Size ≤
        (CtxSet.merge ctxSets).Offset + (CtxSet.merge ctxSets).Size) := by
  obtain ⟨c0, hc0⟩ : ∃ c, c ∈ ctxSets := by
    cases ctxSets with
    | nil => exact absurd rfl hne
    | cons c l => exact ⟨c, List.mem_cons_self c l⟩
  have hu16 : ∀ c ∈ ctxSets, u16 (c.Offset + c.Size) = c.Offset + c.Size :=
    fun c hc => Nat.mod_eq_of_lt (by have := hbound c hc; omega)
  have hmerge : CtxSet.merge ctxSets =
      ⟨ctxSets.foldl (fun x c => min x c.Offset) 65535,
        u16 (ctxSets.foldl (fun x c => max x (u16 (c.Offset + c.Size))) 0 +
          65536 - ctxSets.foldl (fun x c => min x c.Offset) 65535)⟩ := by
    unfold CtxSet.merge
    rw [merge_foldl_split]
  set mn := ctxSets.foldl (fun x c => min x c.Offset) 65535 with hmn
  set mx := ctxSets.foldl (fun x c => max x (u16 (c.Offset + c.Size))) 0
    with hmx
  have hmn_le : ∀ c ∈ ctxSets, mn ≤ c.Offset :=
    fun c hc => foldl_min_le_mem _ ctxSets 65535 c hc
  have hmx_ge : ∀ c ∈ ctxSets, c.Offset + c.Size ≤ mx := by
    intro c hc
    exact le_of_eq_of_le (hu16 c hc).symm
      (foldl_max_mem_le (fun c => u16 (c.Offset + c.Size)) ctxSets 0 c hc)
  have hmx_bound : mx ≤ 65535 := by
    rcases foldl_max_cases (fun c => u16 (c.Offset + c.Size)) ctxSets 0
      with h | ⟨c, hc, h⟩
    · omega
    · rw [hmx, h, hu16 c hc]; exact hbound c hc
  have hmn_le_mx : mn ≤ mx :=
    Nat.le_trans (Nat.le_trans (hmn_le c0 hc0) (Nat.le_add_right _ _))
      (hmx_ge c0 hc0)
  have hexists_mn : ∃ c ∈ ctxSets, mn = c.Offset := by
    rcases foldl_min_cases (fun c => c.Offset) ctxSets 65535
      with h | ⟨c, hc, h⟩
    · refine ⟨c0, hc0, ?_⟩
      have h1 := hmn_le c0 hc0
      have h2 : c0.Offset ≤ 65535 := by have := hbound c0 hc0; omega
      omega
    · exact ⟨c, hc, h⟩
  have hexists_mx : ∃ c ∈ ctxSets, mx = c.Offset + c.Size := by
    rcases foldl_max_cases (fun c => u16 (c.Offset + c.Size)) ctxSets 0
      with h | ⟨c, hc, h⟩
    · refine ⟨c0, hc0, ?_⟩
      have h1 := hmx_ge c0 hc0
      omega
    · exact ⟨c, hc, by rw [hmx, h, hu16 c hc]⟩
  have hoffset : (CtxSet.merge ctxSets).Offset = mn := by rw [hmerge]
  have hsize : (CtxSet.merge ctxSets).Size = mx - mn := by
    rw [hmerge]
    show u16 (mx + 65536 - mn) = mx - mn
    unfold u16
    omega
  have hend : (CtxSet.merge ctxSets).Offset + (CtxSet.merge ctxSets).Size =
      mx := by
    rw [hoffset, hsize]
    omega
  refine ⟨⟨?_, ?_⟩, ?_, ?_⟩
  · obtain ⟨c, hc, h⟩ := hexists_mn
    exact ⟨c, hc, by rw [hoffset, h]⟩
  · intro c hc
    rw [hoffset]
    exact hmn_le c hc
  · obtain ⟨c, hc, h⟩ := hexists_mx
    exact ⟨c, hc, by rw [hend, h]⟩
  · intro c hc
    rw [hend]
    exact hmx_ge c hc

/-- Witness for C7 on two non-adjacent sets: the merge covers the
bounding range from offset 10 to end 107. -/
theorem thm_C7_witness :
    ([CtxSet.mk 10 5, CtxSet.mk 100 7] ≠ ([] : List CtxSet)) ∧
    (∀ c ∈ [CtxSet.mk 10 5, CtxSet.mk 100 7],
      c.Offset + c.Size ≤ 65535) ∧
    (((∃ c ∈ [CtxSet.mk 10 5, CtxSet.mk 100 7],
        (CtxSet.merge [CtxSet.mk 10 5, CtxSet.mk 100 7]).Offset = c.Offset) ∧
      ∀ c ∈ [CtxSet.mk 10 5, CtxSet.mk 100 7],
        (CtxSet.merge [CtxSet.mk 10 5, CtxSet.mk 100 7]).Offset ≤
          c.Offset) ∧
    ((∃ c ∈ [CtxSet.mk 10 5, CtxSet.mk 100 7],
        (CtxSet.merge [CtxSet.mk 10 5, CtxSet.mk 100 7]).Offset +
          (CtxSet.merge [CtxSet.mk 10 5, CtxSet.mk 100 7]).Size =
            c.Offset + c.Size) ∧
      ∀ c ∈ [CtxSet.mk 10 5, CtxSet.mk 100 7], c.Offset + c.Size ≤
        (CtxSet.merge [CtxSet.mk 10 5, CtxSet.mk 100 7]).Offset +
          (CtxSet.merge [CtxSet.mk 10 5, CtxSet.mk 100 7]).Size)) :=
  ⟨by decide, by decide,
    thm_C7_merge_bounding_union [CtxSet.mk 10 5, CtxSet.mk 100 7]
      (by decide) (by decide)⟩

lemma resizeList_of_length {row : List Nat} {n k : Nat} (h : row.length = n) :
    resizeList row (n + k) = row ++ List.replicate k 0 := by
  unfold resizeList
  rw [List.take_of_length_le (by omega), h]
  congr 1
  congr 1
  omega

lemma writeAt_of_length {row vals : List Nat} {n : Nat}
    (h : row.length = n) :
    writeAt (row ++ List.replicate vals.length 0) n vals = row ++ vals := by
  unfold writeAt
  rw [List.take_append_of_le_length (by omega), List.take_of_length_le (by omega)]
  rw [List.drop_eq_nil_of_le (by simp; omega), List.append_nil]

lemma addCtxSetRows_eq (startIdx numValues : Nat) :
    ∀ (rows valss : List (List Nat)), rows.length = valss.length →
    (∀ r ∈ rows, r.length = startIdx) →
    (∀ v ∈ valss, v.length = numValues) →
    addCtxSetRows startIdx numValues rows valss =
      some (List.zipWith (fun r v => r ++ v) rows valss) := by
  intro rows
  induction rows with
  | nil =>
    intro valss hlen _ _
    cases valss with
    | nil => rfl
    | cons v vs => simp at hlen
  | cons row rows ih =>
    intro valss hlen hr hv
    cases valss with
    | nil => simp at hlen
    | cons vals valss =>
      have hv0 : vals.length = numValues :=
        hv vals (List.mem_cons_self vals valss)
      have hrow : row.length = startIdx := hr row (List.mem_cons_self row rows)
      show (if vals.length = numValues then _ else none) = _
      rw [if_pos hv0]
      rw [ih valss (by simpa using hlen)
        (fun r hr2 => hr r (List.mem_cons_of_mem _ hr2))
        (fun v hv2 => hv v (List.mem_cons_of_mem _ hv2))]
      show some (writeAt (resizeList row (startIdx + numValues)) startIdx vals
        :: _) = _
      rw [← hv0, resizeList_of_length hrow, writeAt_of_length hrow]
      rfl

lemma zipWith_append_lengths :
    ∀ (rows valss : List (List Nat)) (L n : Nat),
    (∀ r ∈ rows, r.length = L) → (∀ v ∈ valss, v.length = n) →
    ∀ row ∈ List.zipWith (fun r v => r ++ v) rows valss,
      row.length = L + n := by
  intro rows
  induction rows with
  | nil => intro valss L n _ _ row hrow; simp at hrow
  | cons r rows ih =>
    intro valss L n hL hn row hrow
    cases valss with
    | nil => simp at hrow
    | cons v valss =>
      rcases List.mem_cons.mp hrow with h | h
      · subst h
        rw [List.length_append, hL r (List.mem_cons_self r rows),
          hn v (List.mem_cons_self v valss)]
      · exact ih valss L n
          (fun r2 hr2 => hL r2 (List.mem_cons_of_mem _ hr2))
          (fun v2 hv2 => hn v2 (List.mem_cons_of_mem _ hv2)) row h

/-- C8: a registration call on four parallel rows of common length L,
supplying four value rows of common length n, appends each supplied
row to the matching table at the same relative offset L, returns the
handle with offset L (the tables' common length before the call) and
size n, and leaves every table with length L + n — so consecutive
registration calls receive sequential, deterministic offsets. -/
theorem thm_C8_addCtxSet_appends (st initSet2d : List (List Nat)) (L n : Nat)
    (hst : st.length = NUMBER_OF_SLICE_TYPES + 1)
    (hsets : initSet2d.length = NUMBER_OF_SLICE_TYPES + 1)
    (hL : ∀ row ∈ st, row.length = L)
    (hn : ∀ vals ∈ initSet2d, vals.length = n)
    (hL16 : L < 65536) (hn16 : n < 65536) :
    addCtxSet st initSet2d =
      some (List.zipWith (fun r v => r ++ v) st initSet2d,
        CtxSet.mk L n) ∧
    ∀ row ∈ List.zipWith (fun r v => r ++ v) st initSet2d,
      row.length = L + n := by
  constructor
  · have hhead : (st.headD []).length = L := by
      cases st with
      | nil => simp at hst
      | cons r rows => exact hL r (List.mem_cons_self r rows)
    have hhead2 : (initSet2d.headD []).length = n := by
      cases initSet2d with
      | nil => simp at hsets
      | cons v vs => exact hn v (List.mem_cons_self v vs)
    unfold addCtxSet
    rw [hhead, hhead2]
    dsimp only
    rw [addCtxSetRows_eq L n st initSet2d (by omega) hL hn]
    show some (_, CtxSet.mk (u16 L) (u16 n)) = _
    rw [show u16 L = L from Nat.mod_eq_of_lt hL16,
      show u16 n = n from Nat.mod_eq_of_lt hn16]
  · exact zipWith_append_lengths st initSet2d L n hL hn

/-- Witness for C8: registering a two-context group on four rows that
already hold one context each. -/
theorem thm_C8_witness :
    ([[1], [2], [3], [4]] : List (List Nat)).length =
      NUMBER_OF_SLICE_TYPES + 1 ∧
    ([[5, 6], [7, 8], [9, 10], [11, 12]] : List (List Nat)).length =
      NUMBER_OF_SLICE_TYPES + 1 ∧
    (∀ row ∈ ([[1], [2], [3], [4]] : List (List Nat)), row.length = 1) ∧
    (∀ vals ∈ ([[5, 6], [7, 8], [9, 10], [11, 12]] : List (List Nat)),
      vals.length = 2) ∧
    (addCtxSet [[1], [2], [3], [4]] [[5, 6], [7, 8], [9, 10], [11, 12]] =
      some (List.zipWith (fun r v => r ++ v) [[1], [2], [3], [4]]
          [[5, 6], [7, 8], [9, 10], [11, 12]],
        CtxSet.mk 1 2) ∧
    ∀ row ∈ List.zipWith (fun r v => r ++ v) [[1], [2], [3], [4]]
        [[5, 6], [7, 8], [9, 10], [11, 12]],
      row.length = 1 + 2) :=
  ⟨by decide, by decide, by decide, by decide,
    thm_C8_addCtxSet_appends [[1], [2], [3], [4]]
      [[5, 6], [7, 8], [9, 10], [11, 12]] 1 2 (by decide) (by decide)
      (by decide) (by decide) (by decide) (by decide)⟩
